import Mathlib

/-!
# dex-go: metrics middleware

A shallow embedding of `pkg/dex` (`response_writer.go`, `metric.go`, `dex.go`).

Modelling conventions.

* Go `int`, `int64` and `time.Duration` values are `Int`; a `uint64` is a `Nat`
  and its conversion to `int64` is written out with `% 2^64`.
* Go strings are `String`; a byte slice is a `List Nat`.
* The wrapped `http.ResponseWriter` is an interface value: it is modelled by a
  state `σ` together with its methods (`ResponseWriter σ`).
* Goroutines and the channel are made sequential: `handler` returns the points
  it sends on `metricQueue`, in sending order, and `start` takes the points it
  receives from `metricQueue`, in receiving order.  The mutex has no
  counterpart.
* What the network, the clock and the runtime answer is an explicit argument.
-/

namespace DexGo

/-! ## response_writer.go -/

/-- A byte slice. -/
abbrev Bytes := List Nat

/-- The result pair `(int, error)` of a `Write`; `none` is the `nil` error. -/
abbrev WriteResult := Int × Option String

/-- The methods of the wrapped `http.ResponseWriter`, over its own state `σ`. -/
structure ResponseWriter (σ : Type) where
  Header : σ → List (String × List String)
  Write : σ → Bytes → σ × WriteResult
  WriteHeader : σ → Int → σ

/-- The dex implementation of `http.ResponseWriter`: the wrapped writer and the
recorded status code (zero value `0`). -/
structure Response (σ : Type) where
  w : σ
  statusCode : Int

/-- Source: `func (r *Response) Header() http.Header` -/
def Response.Header {σ : Type} (ops : ResponseWriter σ) (r : Response σ) :
    List (String × List String) :=
  ops.Header r.w

/-- Source: `func (r *Response) Write(b []byte) (int, error)` -/
def Response.Write {σ : Type} (ops : ResponseWriter σ) (r : Response σ) (b : Bytes) :
    Response σ × WriteResult :=
  let r1 : Response σ := if r.statusCode = 0 then { r with statusCode := 200 } else r
  let res := ops.Write r1.w b
  ({ r1 with w := res.1 }, res.2)

/-- Source: `func (r *Response) WriteHeader(statusCode int)` -/
def Response.WriteHeader {σ : Type} (ops : ResponseWriter σ) (r : Response σ)
    (statusCode : Int) : Response σ :=
  let r1 : Response σ := { r with statusCode := statusCode }
  { r1 with w := ops.WriteHeader r1.w statusCode }

/-- One call made on a `Response` by the code that holds it. -/
inductive Call where
  | writeHeader (statusCode : Int)
  | write (b : Bytes)
  deriving DecidableEq, Repr

/-- Perform one call, dropping the value a `Write` returns. -/
def Response.call {σ : Type} (ops : ResponseWriter σ) (r : Response σ) : Call → Response σ
  | .writeHeader c => r.WriteHeader ops c
  | .write b => (r.Write ops b).1

/-- Perform a sequence of calls, first to last. -/
def Response.calls {σ : Type} (ops : ResponseWriter σ) (r : Response σ) (cs : List Call) :
    Response σ :=
  cs.foldl (Response.call ops) r

/-- A wrapped writer that keeps the calls it receives, and reports every byte of
a `Write` as written. -/
def recorder : ResponseWriter (List Call) where
  Header := fun _ => []
  Write := fun s b => (s ++ [Call.write b], ((b.length : Int), none))
  WriteHeader := fun s c => s ++ [Call.writeHeader c]

/-- A wrapped writer that sends a status once, as the writer of `net/http` does:
the status sent to the client is the code of the first `WriteHeader`, or `200`
when a `Write` comes first, and a later `WriteHeader` changes nothing.  Its
state is the status sent, if any, and the body sent. -/
def firstWins : ResponseWriter (Option Int × Bytes) where
  Header := fun _ => []
  Write := fun s b => ((some (s.1.getD 200), s.2 ++ b), ((b.length : Int), none))
  WriteHeader := fun s c => (some (s.1.getD c), s.2)

/-! ## metric.go -/

/-- Source: `type Metric struct`; the field `Type` is `MType` here (`Type` is reserved),
and `Time` is an instant in nanoseconds. -/
structure Metric where
  Time : Nat
  Hostname : String
  Platform : String
  Path : String
  Host : String
  MType : String
  Value : Int
  deriving DecidableEq, Repr

/-- Source: `func NewMetric(now time.Time, hostname, path, host, mtype string, value int64) Metric` -/
def NewMetric (now : Nat) (hostname path host mtype : String) (value : Int) : Metric :=
  { Time := now
    Hostname := hostname
    Platform := "go"
    Path := path
    Host := host
    MType := mtype
    Value := value }

/-! ## dex.go -/

/-- Source: `type Dex struct`, without the mutex and the channel. -/
structure Dex where
  LogAfter : Int
  serviceKey : String
  metrics : List Metric
  hostname : String
  sendMetrics : Bool
  latency : Bool
  memory : Bool
  statusCode : Bool
  deriving DecidableEq, Repr

/-- Source: `type dexKeyDetail struct`, the `data` object of the document. -/
structure dexKeyDetail where
  Name : String
  Metrics : List String
  deriving DecidableEq, Repr

/-- Source: `func New(serviceKey string) *Dex`, with the result of `os.Hostname()` (or
its replacement) as an argument; the two goroutines are not started here. -/
def New (serviceKey hostname : String) : Dex :=
  { LogAfter := 50
    serviceKey := serviceKey
    metrics := []
    hostname := hostname
    sendMetrics := false
    latency := false
    memory := false
    statusCode := false }

/-- Source: `func stringInSlice(a string, list []string) bool` -/
def stringInSlice (a : String) : List String → Bool
  | [] => false
  | b :: list => if b = a then true else stringInSlice a list

/-- What one capability fetch meets: `http.NewRequest` fails, `client.Do`
fails, or a response arrives with a status and a body that decodes or not. -/
inductive FetchOutcome where
  | requestError (err : String)
  | transportError (err : String)
  | response (status : Int) (body : Except String dexKeyDetail)

/-- Source: `func setupDexKeyDetails(d *Dex) error`: the updated `Dex` and the returned
error (`none` is `nil`). -/
def setupDexKeyDetails (d : Dex) : FetchOutcome → Dex × Option String
  | .requestError err => (d, some err)
  | .transportError err => (d, some err)
  | .response status body =>
    if status ≠ 200 then
      (d, some ("dex::setupDexKeyDetails : expected 200, got " ++ toString status))
    else
      match body with
      | .error err => (d, some err)
      | .ok kd =>
        ({ d with
            latency := stringInSlice "latency" kd.Metrics
            memory := stringInSlice "memory" kd.Metrics
            statusCode := stringInSlice "status_code" kd.Metrics
            sendMetrics := true }, none)

/-- One turn of the loop of `pollKeyDetails`: the updated `Dex` and the lines
printed on standard error. -/
def pollCycle (d : Dex) (f : FetchOutcome) : Dex × List String :=
  let res := setupDexKeyDetails d f
  match res.2 with
  | some err => ({ res.1 with sendMetrics := false }, [err])
  | none => (res.1, [])

/-- Source: `func pollKeyDetails(d *Dex)` over the first cycles of its endless loop,
one fetch outcome per cycle. -/
def pollKeyDetails (d : Dex) (fs : List FetchOutcome) : Dex :=
  fs.foldl (fun d f => (pollCycle d f).1) d

/-- What one dispatch meets. -/
inductive DispatchOutcome where
  | encodeError (err : String)
  | requestError (err : String)
  | transportError (err : String)
  | response (status : Int) (body : String)

/-- Source: `func sendMetric(ms []Metric, key string)`: it returns nothing; the value
here is what it prints on standard error. -/
def sendMetric (_ms : List Metric) (_key : String) : DispatchOutcome → List String
  | .encodeError err => ["dex::sendMetric : json.Encode : " ++ err]
  | .requestError err => ["dex::sendMetric : http.NewRequest : " ++ err]
  | .transportError err => ["dex::sendMetric : client.Do : " ++ err]
  | .response status body =>
    if status ≠ 204 then
      ["dex::sendMetric : response : expected 204, got " ++ toString status, body]
    else []

/-- The consumer loop together with what it hands to `sendMetric`. -/
structure Batcher where
  d : Dex
  dispatched : List (List Metric × String)
  stderr : List String

/-- One turn of the loop of `start`, for the point `m` received from
`metricQueue`; `net` is what the dispatch of a batch meets. -/
def startStep (net : List Metric → DispatchOutcome) (s : Batcher) (m : Metric) : Batcher :=
  let d1 : Dex := { s.d with metrics := s.d.metrics ++ [m] }
  if (d1.metrics.length : Int) > d1.LogAfter then
    { d := { d1 with metrics := [] }
      dispatched := s.dispatched ++ [(d1.metrics, d1.serviceKey)]
      stderr := s.stderr ++ sendMetric d1.metrics d1.serviceKey (net d1.metrics) }
  else
    { s with d := d1 }

/-- Source: `func (d *Dex) start()` over the first points it receives. -/
def start (net : List Metric → DispatchOutcome) (d : Dex) (received : List Metric) : Batcher :=
  received.foldl (startStep net) { d := d, dispatched := [], stderr := [] }

/-- The conversion `int64(u)` of a `uint64`. -/
def int64OfUint64 (u : Nat) : Int :=
  if u % 2 ^ 64 < 2 ^ 63 then ((u % 2 ^ 64 : Nat) : Int) else ((u % 2 ^ 64 : Nat) : Int) - 2 ^ 64

/-- The pieces of a character sequence between the occurrences of `sep`. -/
def splitChars (sep : Char) : List Char → List (List Char)
  | [] => [[]]
  | c :: cs =>
    if c = sep then [] :: splitChars sep cs
    else
      match splitChars sep cs with
      | [] => [[c]]
      | p :: ps => (c :: p) :: ps

/-- Source: `strings.Split(s, sep)` for a separator of one character. -/
def stringsSplit (s : String) (sep : Char) : List String :=
  (splitChars sep s.data).map String.mk

/-- The parts of `*http.Request` that `handler` reads. -/
structure Request where
  URLPath : String
  Host : String
  deriving DecidableEq, Repr

/-- What the clock and the runtime answer during one request: `time.Now()` at
entry, the elapsed `time.Duration` in nanoseconds, and `MemStats.Alloc`. -/
structure Readings where
  start : Nat
  del : Int
  alloc : Nat
  deriving DecidableEq, Repr

/-- Source: `func (d *Dex) handler(w, r, next)`: `next` is the sequence of calls the
wrapped handler makes on the `Response` it is given.  The result is the wrapped
writer afterwards and the points sent on `metricQueue`, in sending order; the
kind flags, which the goroutine reads under the mutex, are read in the same
`Dex` as `sendMetrics`. -/
def handler {σ : Type} (ops : ResponseWriter σ) (d : Dex) (w : σ) (r : Request)
    (next : List Call) (env : Readings) : σ × List Metric :=
  let mresp := Response.calls ops { w := w, statusCode := 0 } next
  if d.sendMetrics then
    let path := r.URLPath
    let host := (stringsSplit r.Host ':').headD ""
    (mresp.w,
      (if d.latency then [NewMetric env.start d.hostname path host "latency" env.del] else [])
      ++ (if d.memory then
            [NewMetric env.start d.hostname path host "memory" (int64OfUint64 env.alloc)]
          else [])
      ++ (if d.statusCode then
            [NewMetric env.start d.hostname path host "status_code" mresp.statusCode]
          else []))
  else
    (mresp.w, [])

/-- One request as `Middleware` sees it: the `Dex` as the request finds it, the
writer and the request it is given, what the wrapped handler does, and the
readings. -/
structure Served (σ : Type) where
  d : Dex
  w : σ
  r : Request
  next : List Call
  env : Readings

/-- The points sent on `metricQueue` by a sequence of requests, in order. -/
def handleAll {σ : Type} (ops : ResponseWriter σ) : List (Served σ) → List Metric
  | [] => []
  | q :: qs => (handler ops q.d q.w q.r q.next q.env).2 ++ handleAll ops qs

/-! ## Sample data -/

/-- A dispatch that meets a `204` answer. -/
def netOK : List Metric → DispatchOutcome :=
  fun _ => DispatchOutcome.response 204 ""

/-- A dispatch that meets a `500` answer. -/
def netFail : List Metric → DispatchOutcome :=
  fun _ => DispatchOutcome.response 500 "internal error"

/-- A latency point numbered `n`. -/
def samplePoint (n : Nat) : Metric :=
  NewMetric n "worker-1" "/" "example.com" "latency" n

/-- A fresh `Dex` with the threshold `T`. -/
def sampleDex (T : Int) : Dex :=
  { New "key" "worker-1" with LogAfter := T }

/-- A `Dex` on which collection is active for all three kinds. -/
def activeDex : Dex :=
  { New "key" "worker-1" with sendMetrics := true, latency := true, memory := true,
                               statusCode := true }

/-- A request whose host is a bracketed IPv6 address with a port. -/
def bracketedRequest : Request :=
  { URLPath := "/status", Host := "[::1]:8080" }

/-! ## Reference readings of the specification -/

/-- The status code fixed by the first status-determining call of a sequence,
as the specification words it: the argument of a leading `WriteHeader`, `200`
for a leading `Write`, unset (`0`) for no call at all. -/
def firstStatus : List Call → Int
  | [] => 0
  | .writeHeader c :: _ => c
  | .write _ :: _ => 200

/-- A request host with its port suffix removed, as the specification words it:
a final `:` followed only by decimal digits is dropped, anything else is kept. -/
def hostWithoutPort (host : String) : String :=
  match host.data.reverse.dropWhile Char.isDigit with
  | ':' :: rest => String.mk rest.reverse
  | _ => host

/-- A capability fetch that fails, as the specification words it: an error
before any response, a status other than `200`, or a body that does not decode. -/
def FetchOutcome.failed : FetchOutcome → Bool
  | .requestError _ => true
  | .transportError _ => true
  | .response status body =>
    if status ≠ 200 then true
    else
      match body with
      | .error _ => true
      | .ok _ => false

/-! ## Response Observer -/

theorem Response.calls_nil {σ : Type} (ops : ResponseWriter σ) (r : Response σ) :
    Response.calls ops r [] = r := rfl

theorem Response.calls_cons {σ : Type} (ops : ResponseWriter σ) (r : Response σ) (c : Call)
    (cs : List Call) :
    Response.calls ops r (c :: cs) = Response.calls ops (Response.call ops r c) cs := rfl

theorem Response.calls_append {σ : Type} (ops : ResponseWriter σ) (r : Response σ)
    (cs ds : List Call) :
    Response.calls ops r (cs ++ ds) = Response.calls ops (Response.calls ops r cs) ds := by
  simp [Response.calls, List.foldl_append]

/-- A `Write` keeps a recorded status code that is not `0`. -/
theorem Response.Write_statusCode_of_ne_zero {σ : Type} (ops : ResponseWriter σ)
    (r : Response σ) (b : Bytes) (h : r.statusCode ≠ 0) :
    (r.Write ops b).1.statusCode = r.statusCode := by
  simp [Response.Write, h]

/-- Body writes keep a recorded status code that is not `0`. -/
theorem Response.calls_writes_of_ne_zero {σ : Type} (ops : ResponseWriter σ)
    (writes : List Bytes) :
    ∀ r : Response σ, r.statusCode ≠ 0 →
      (Response.calls ops r (writes.map Call.write)).statusCode = r.statusCode := by
  induction writes with
  | nil => intro r _; rfl
  | cons b bs ih =>
    intro r h
    have h1 : (r.Write ops b).1.statusCode = r.statusCode :=
      Response.Write_statusCode_of_ne_zero ops r b h
    simp only [List.map_cons, Response.calls_cons, Response.call]
    rw [ih _ (by rw [h1]; exact h), h1]

/-- Body writes on a `Response` whose status code is unset record `200` as soon
as there is one. -/
theorem Response.calls_writes_of_zero {σ : Type} (ops : ResponseWriter σ) (r : Response σ)
    (writes : List Bytes) (h : r.statusCode = 0) :
    (Response.calls ops r (writes.map Call.write)).statusCode
      = if writes = [] then 0 else 200 := by
  cases writes with
  | nil => simpa [Response.calls] using h
  | cons b bs =>
    have h1 : (r.Write ops b).1.statusCode = 200 := by simp [Response.Write, h]
    simp only [List.map_cons, Response.calls_cons, Response.call]
    rw [Response.calls_writes_of_ne_zero ops bs _ (by rw [h1]; decide), h1]
    simp

/-- C8. A `Write` on a `Response` whose recorded status code is still unset
(`0`) records `200`, hands the same payload to the wrapped writer, whose new
state it keeps, and returns exactly what the wrapped writer's `Write` returns
for that payload. -/
theorem Response.Write_implicit_status {σ : Type} (ops : ResponseWriter σ) (r : Response σ)
    (b : Bytes) (h : r.statusCode = 0) :
    (r.Write ops b).1.statusCode = 200
      ∧ (r.Write ops b).2 = (ops.Write r.w b).2
      ∧ (r.Write ops b).1.w = (ops.Write r.w b).1 := by
  simp [Response.Write, h]

theorem Response.Write_implicit_status_witness :
    (({ w := [], statusCode := 0 } : Response (List Call)).Write recorder [104, 105]).1.statusCode
        = 200
      ∧ (({ w := [], statusCode := 0 } : Response (List Call)).Write recorder [104, 105]).2
        = (recorder.Write [] [104, 105]).2
      ∧ (({ w := [], statusCode := 0 } : Response (List Call)).Write recorder [104, 105]).1.w
        = (recorder.Write [] [104, 105]).1 :=
  Response.Write_implicit_status recorder { w := [], statusCode := 0 } [104, 105] rfl

/-- C2. For every status code `X` (a value other than `0`, which is the unset
value of the field and not a status code) and every sequence of body writes,
`WriteHeader(X)` on a fresh `Response` followed by those writes leaves the
recorded status code equal to `X`. -/
theorem Response.WriteHeader_then_writes {σ : Type} (ops : ResponseWriter σ) (w : σ) (X : Int)
    (writes : List Bytes) (hX : X ≠ 0) :
    (Response.calls ops { w := w, statusCode := 0 }
        (Call.writeHeader X :: writes.map Call.write)).statusCode = X := by
  rw [Response.calls_cons]
  rw [Response.calls_writes_of_ne_zero ops writes _ (by simpa [Response.call, Response.WriteHeader] using hX)]
  rfl

theorem Response.WriteHeader_then_writes_witness :
    (404 : Int) ≠ 0
      ∧ (Response.calls recorder { w := [], statusCode := 0 }
          (Call.writeHeader 404 :: [[110], [111]].map Call.write)).statusCode = 404 :=
  ⟨by decide, Response.WriteHeader_then_writes recorder [] 404 [[110], [111]] (by decide)⟩

/-- C3. For the calls `WriteHeader(404)`, `WriteHeader(500)` on a fresh
`Response` over a writer that sends a status once, the client is sent `404`, the
first status code written, while the `Response` records `500`, and `handler`
sends `500` as the value of the status_code point.  Likewise for a `Write`
followed by `WriteHeader(500)`: the client is sent `200` and the `Response`
records `500`. -/
theorem Response.second_WriteHeader_replaces :
    firstStatus [Call.writeHeader 404, Call.writeHeader 500] = 404
      ∧ (Response.calls firstWins { w := (none, []), statusCode := 0 }
          [Call.writeHeader 404, Call.writeHeader 500]).w.1 = some 404
      ∧ (Response.calls firstWins { w := (none, []), statusCode := 0 }
          [Call.writeHeader 404, Call.writeHeader 500]).statusCode = 500
      ∧ (handler firstWins activeDex (none, []) { URLPath := "/", Host := "example.com:9091" }
          [Call.writeHeader 404, Call.writeHeader 500] ⟨10, 5, 4096⟩).2
          = [NewMetric 10 "worker-1" "/" "example.com" "latency" 5,
             NewMetric 10 "worker-1" "/" "example.com" "memory" 4096,
             NewMetric 10 "worker-1" "/" "example.com" "status_code" 500]
      ∧ firstStatus [Call.write [111, 107], Call.writeHeader 500] = 200
      ∧ (Response.calls firstWins { w := (none, []), statusCode := 0 }
          [Call.write [111, 107], Call.writeHeader 500]).w.1 = some 200
      ∧ (Response.calls firstWins { w := (none, []), statusCode := 0 }
          [Call.write [111, 107], Call.writeHeader 500]).statusCode = 500 := by
  decide

/-! ## Metric Batcher -/

theorem start_nil (net : List Metric → DispatchOutcome) (d : Dex) :
    start net d [] = { d := d, dispatched := [], stderr := [] } := rfl

theorem start_append_singleton (net : List Metric → DispatchOutcome) (d : Dex)
    (pts : List Metric) (m : Metric) :
    start net d (pts ++ [m]) = startStep net (start net d pts) m := by
  simp [start, List.foldl_append]

/-- A received point that does not bring the Pending Batch above the threshold
is appended and nothing else happens. -/
theorem startStep_of_le (net : List Metric → DispatchOutcome) (s : Batcher) (m : Metric)
    (h : ((s.d.metrics ++ [m]).length : Int) ≤ s.d.LogAfter) :
    startStep net s m = { s with d := { s.d with metrics := s.d.metrics ++ [m] } } := by
  unfold startStep
  simp only []
  rw [if_neg (not_lt.mpr h)]

/-- A received point that brings the Pending Batch above the threshold makes the
whole batch be dispatched and the Pending Batch empty. -/
theorem startStep_of_gt (net : List Metric → DispatchOutcome) (s : Batcher) (m : Metric)
    (h : s.d.LogAfter < ((s.d.metrics ++ [m]).length : Int)) :
    startStep net s m =
      { d := { s.d with metrics := [] }
        dispatched := s.dispatched ++ [(s.d.metrics ++ [m], s.d.serviceKey)]
        stderr := s.stderr
          ++ sendMetric (s.d.metrics ++ [m]) s.d.serviceKey (net (s.d.metrics ++ [m])) } := by
  unfold startStep
  simp only []
  rw [if_pos h]

/-- While at most `T` points have been received from an empty Pending Batch, the
loop has only appended. -/
theorem start_below_threshold (net : List Metric → DispatchOutcome) (T : Nat)
    (pts : List Metric) :
    ∀ d : Dex, d.metrics = [] → d.LogAfter = (T : Int) → pts.length ≤ T →
      start net d pts = { d := { d with metrics := pts }, dispatched := [], stderr := [] } := by
  induction pts using List.reverseRecOn with
  | nil =>
    intro d hd _ _
    rw [start_nil]
    cases d
    simp_all
  | append_singleton pts m ih =>
    intro d hd hT hlen
    have hlen1 : pts.length + 1 ≤ T := by simpa using hlen
    rw [start_append_singleton, ih d hd hT (by omega)]
    rw [startStep_of_le]
    simp only [List.length_append, List.length_singleton, hT]
    exact_mod_cast hlen1

/-- The receipt of point number `T + 1` from an empty Pending Batch. -/
theorem start_at_threshold_succ (net : List Metric → DispatchOutcome) (T : Nat)
    (pts : List Metric) (m : Metric) (d : Dex) (hd : d.metrics = [])
    (hT : d.LogAfter = (T : Int)) (hlen : pts.length = T) :
    start net d (pts ++ [m]) =
      { d := d
        dispatched := [(pts ++ [m], d.serviceKey)]
        stderr := sendMetric (pts ++ [m]) d.serviceKey (net (pts ++ [m])) } := by
  rw [start_append_singleton, start_below_threshold net T pts d hd hT (le_of_eq hlen)]
  rw [startStep_of_gt]
  · cases d
    simp_all
  · simp only [List.length_append, List.length_singleton, hT, hlen]
    exact_mod_cast Nat.lt_succ_self T

/-- C9. With threshold `T` and an empty Pending Batch at the start, receiving the
first `k ≤ T` points dispatches nothing and leaves exactly those points pending;
the receipt of point number `T + 1` dispatches one batch, made of all `T + 1`
points received, and leaves the Pending Batch empty. -/
theorem start_flush_is_strictly_greater (net : List Metric → DispatchOutcome) (T : Nat)
    (pts : List Metric) (d : Dex) (hd : d.metrics = []) (hT : d.LogAfter = (T : Int))
    (hlen : pts.length = T + 1) :
    (∀ k, k ≤ T →
        (start net d (pts.take k)).dispatched = []
          ∧ (start net d (pts.take k)).d.metrics = pts.take k)
      ∧ (start net d pts).dispatched = [(pts, d.serviceKey)]
      ∧ (start net d pts).dispatched.map (fun b => b.1.length) = [T + 1]
      ∧ (start net d pts).d.metrics = [] := by
  have hsplit : pts = pts.dropLast ++ [pts.getLast (by intro h; simp [h] at hlen)] :=
    (List.dropLast_append_getLast _).symm
  have hfull := start_at_threshold_succ net T pts.dropLast
    (pts.getLast (by intro h; simp [h] at hlen)) d hd hT (by simp [hlen])
  rw [← hsplit] at hfull
  refine ⟨?_, ?_, ?_, ?_⟩
  · intro k hk
    rw [start_below_threshold net T (pts.take k) d hd hT (by simp; omega)]
    exact ⟨rfl, rfl⟩
  · rw [hfull]
  · rw [hfull]; simp [hlen]
  · rw [hfull]; exact hd

theorem start_flush_is_strictly_greater_witness :
    (∀ k, k ≤ 2 →
        (start netOK (sampleDex 2)
            ([samplePoint 1, samplePoint 2, samplePoint 3].take k)).dispatched = []
          ∧ (start netOK (sampleDex 2)
            ([samplePoint 1, samplePoint 2, samplePoint 3].take k)).d.metrics
              = [samplePoint 1, samplePoint 2, samplePoint 3].take k)
      ∧ (start netOK (sampleDex 2) [samplePoint 1, samplePoint 2, samplePoint 3]).dispatched
          = [([samplePoint 1, samplePoint 2, samplePoint 3], (sampleDex 2).serviceKey)]
      ∧ (start netOK (sampleDex 2)
          [samplePoint 1, samplePoint 2, samplePoint 3]).dispatched.map (fun b => b.1.length)
          = [2 + 1]
      ∧ (start netOK (sampleDex 2) [samplePoint 1, samplePoint 2, samplePoint 3]).d.metrics
          = [] :=
  start_flush_is_strictly_greater netOK 2 [samplePoint 1, samplePoint 2, samplePoint 3]
    (sampleDex 2) rfl rfl rfl

/-- C1, as stated, fails. With threshold `1` the second point received already
triggers the dispatch; the third point, number `T + 2`, triggers none and stays
in the Pending Batch. -/
theorem start_point_T_add_two_no_dispatch :
    (start netOK (sampleDex 1) [samplePoint 1]).dispatched = []
      ∧ (start netOK (sampleDex 1) [samplePoint 1, samplePoint 2]).dispatched
          = [([samplePoint 1, samplePoint 2], "key")]
      ∧ (start netOK (sampleDex 1) [samplePoint 1, samplePoint 2, samplePoint 3]).dispatched
          = (start netOK (sampleDex 1) [samplePoint 1, samplePoint 2]).dispatched
      ∧ (start netOK (sampleDex 1) [samplePoint 1, samplePoint 2, samplePoint 3]).d.metrics
          = [samplePoint 3]
      ∧ (start netOK (sampleDex 1) [samplePoint 1, samplePoint 2, samplePoint 3]).d.metrics
          ≠ [] := by
  decide

/-- C1, amended. With threshold `T` and an empty Pending Batch at the start,
nothing is dispatched while the first `T` points are received, and the turn of
the loop that receives point number `T + 1` triggers exactly one dispatch, of a
batch of exactly `T + 1` points, and leaves the Pending Batch empty. -/
theorem startStep_dispatches_on_point_T_succ (net : List Metric → DispatchOutcome) (T : Nat)
    (pts : List Metric) (m : Metric) (d : Dex) (hd : d.metrics = [])
    (hT : d.LogAfter = (T : Int)) (hlen : pts.length = T) :
    (start net d pts).dispatched = []
      ∧ (startStep net (start net d pts) m).dispatched = [(pts ++ [m], d.serviceKey)]
      ∧ (pts ++ [m]).length = T + 1
      ∧ (startStep net (start net d pts) m).d.metrics = [] := by
  have hfull := start_at_threshold_succ net T pts m d hd hT hlen
  rw [start_append_singleton] at hfull
  refine ⟨?_, ?_, ?_, ?_⟩
  · rw [start_below_threshold net T pts d hd hT (le_of_eq hlen)]
  · rw [hfull]
  · simp [hlen]
  · rw [hfull]; exact hd

theorem startStep_dispatches_on_point_T_succ_witness :
    (start netOK (sampleDex 2) [samplePoint 1, samplePoint 2]).dispatched = []
      ∧ (startStep netOK (start netOK (sampleDex 2) [samplePoint 1, samplePoint 2])
          (samplePoint 3)).dispatched
          = [([samplePoint 1, samplePoint 2] ++ [samplePoint 3], (sampleDex 2).serviceKey)]
      ∧ ([samplePoint 1, samplePoint 2] ++ [samplePoint 3]).length = 2 + 1
      ∧ (startStep netOK (start netOK (sampleDex 2) [samplePoint 1, samplePoint 2])
          (samplePoint 3)).d.metrics = [] :=
  startStep_dispatches_on_point_T_succ netOK 2 [samplePoint 1, samplePoint 2] (samplePoint 3)
    (sampleDex 2) rfl rfl rfl

/-- The batches dispatched from a state onwards, flattened, and followed by the
Pending Batch, are the Pending Batch of that state followed by the points
received since. -/
theorem foldl_startStep_batches (net : List Metric → DispatchOutcome) (pts : List Metric) :
    ∀ s : Batcher, ∃ later : List (List Metric × String),
      (pts.foldl (startStep net) s).dispatched = s.dispatched ++ later
        ∧ (later.map Prod.fst).flatten ++ (pts.foldl (startStep net) s).d.metrics
            = s.d.metrics ++ pts := by
  induction pts with
  | nil => intro s; exact ⟨[], by simp⟩
  | cons m pts ih =>
    intro s
    rw [List.foldl_cons]
    rcases le_or_lt (((s.d.metrics ++ [m]).length : Int)) s.d.LogAfter with h | h
    · obtain ⟨later, h1, h2⟩ := ih (startStep net s m)
      rw [startStep_of_le net s m h] at h1 h2
      rw [startStep_of_le net s m h]
      exact ⟨later, h1, by simpa using h2⟩
    · obtain ⟨later, h1, h2⟩ := ih (startStep net s m)
      rw [startStep_of_gt net s m h] at h1 h2
      rw [startStep_of_gt net s m h]
      refine ⟨(s.d.metrics ++ [m], s.d.serviceKey) :: later, by simpa using h1, ?_⟩
      simp only [List.map_cons, List.flatten_cons, List.append_assoc]
      simp only [List.nil_append] at h2
      rw [h2]
      simp

/-- What the dispatches meet has no effect on the loop: neither on the `Dex` nor
on the batches handed over. -/
theorem foldl_startStep_net_irrelevant (net1 net2 : List Metric → DispatchOutcome)
    (pts : List Metric) :
    ∀ s1 s2 : Batcher, s1.d = s2.d → s1.dispatched = s2.dispatched →
      (pts.foldl (startStep net1) s1).d = (pts.foldl (startStep net2) s2).d
        ∧ (pts.foldl (startStep net1) s1).dispatched
            = (pts.foldl (startStep net2) s2).dispatched := by
  induction pts with
  | nil => intro s1 s2 hd hb; exact ⟨hd, hb⟩
  | cons m pts ih =>
    intro s1 s2 hd hb
    rw [List.foldl_cons, List.foldl_cons]
    apply ih
    · unfold startStep
      simp only [hd]
      split <;> rfl
    · unfold startStep
      simp only [hd, hb]
      split <;> rfl

/-- C10. For every threshold, every answer `net` of the network to the
dispatches and every sequence of points received from an empty Pending Batch:
the dispatched batches, concatenated in dispatch order and followed by the
Pending Batch, are the received sequence in arrival order; with any other answer
`net2` of the network the loop ends in the same `Dex` and has handed over the
same batches; and the batches dispatched after any prefix `pre` of the sequence
are made only of the points pending at that moment and the points received
after it. -/
theorem start_batches_partition_received (net : List Metric → DispatchOutcome) (d : Dex)
    (received : List Metric) (hd : d.metrics = []) :
    ((start net d received).dispatched.map Prod.fst).flatten
        ++ (start net d received).d.metrics = received
      ∧ (∀ net2 : List Metric → DispatchOutcome,
          (start net2 d received).d = (start net d received).d
            ∧ (start net2 d received).dispatched = (start net d received).dispatched)
      ∧ (∀ pre post : List Metric, received = pre ++ post →
          ∃ later : List (List Metric × String),
            (start net d received).dispatched = (start net d pre).dispatched ++ later
              ∧ (later.map Prod.fst).flatten ++ (start net d received).d.metrics
                  = (start net d pre).d.metrics ++ post) := by
  refine ⟨?_, ?_, ?_⟩
  · obtain ⟨later, h1, h2⟩ :=
      foldl_startStep_batches net received { d := d, dispatched := [], stderr := [] }
    unfold start
    rw [h1]
    simpa [hd] using h2
  · intro net2
    exact foldl_startStep_net_irrelevant net2 net received _ _ rfl rfl
  · intro pre post hsplit
    subst hsplit
    obtain ⟨later, h1, h2⟩ := foldl_startStep_batches net post (start net d pre)
    refine ⟨later, ?_, ?_⟩
    · unfold start at h1 ⊢
      rw [List.foldl_append]
      exact h1
    · unfold start at h2 ⊢
      rw [List.foldl_append]
      exact h2

theorem start_batches_partition_received_witness :
    ((start netFail (sampleDex 1)
          [samplePoint 1, samplePoint 2, samplePoint 3, samplePoint 4, samplePoint 5]
        ).dispatched.map Prod.fst).flatten
        ++ (start netFail (sampleDex 1)
          [samplePoint 1, samplePoint 2, samplePoint 3, samplePoint 4, samplePoint 5]).d.metrics
        = [samplePoint 1, samplePoint 2, samplePoint 3, samplePoint 4, samplePoint 5]
      ∧ (start netFail (sampleDex 1)
          [samplePoint 1, samplePoint 2, samplePoint 3, samplePoint 4, samplePoint 5]).dispatched
        = [([samplePoint 1, samplePoint 2], "key"), ([samplePoint 3, samplePoint 4], "key")]
      ∧ (start netOK (sampleDex 1)
          [samplePoint 1, samplePoint 2, samplePoint 3, samplePoint 4, samplePoint 5]).dispatched
        = (start netFail (sampleDex 1)
          [samplePoint 1, samplePoint 2, samplePoint 3, samplePoint 4, samplePoint 5]).dispatched :=
  ⟨(start_batches_partition_received netFail (sampleDex 1)
      [samplePoint 1, samplePoint 2, samplePoint 3, samplePoint 4, samplePoint 5] rfl).1,
    by decide,
    ((start_batches_partition_received netFail (sampleDex 1)
      [samplePoint 1, samplePoint 2, samplePoint 3, samplePoint 4, samplePoint 5] rfl).2.1
        netOK).2⟩

/-! ## Configuration Poller -/

theorem stringInSlice_iff (a : String) (list : List String) :
    stringInSlice a list = true ↔ a ∈ list := by
  induction list with
  | nil => simp [stringInSlice]
  | cons b list ih =>
    by_cases h : b = a
    · simp [stringInSlice, h]
    · have h1 : ¬ a = b := fun e => h e.symm
      simp [stringInSlice, h, h1, ih]

theorem stringInSlice_eq_decide (a : String) (list : List String) :
    stringInSlice a list = decide (a ∈ list) := by
  cases h : stringInSlice a list with
  | true => exact (decide_eq_true ((stringInSlice_iff a list).mp h)).symm
  | false =>
    have : a ∉ list := fun hin => by
      rw [(stringInSlice_iff a list).mpr hin] at h
      cases h
    exact (decide_eq_false this).symm

/-- A failing fetch makes `setupDexKeyDetails` return an error and change
nothing. -/
theorem setupDexKeyDetails_of_failed (d : Dex) (f : FetchOutcome) (hf : f.failed = true) :
    (setupDexKeyDetails d f).1 = d ∧ (setupDexKeyDetails d f).2.isSome = true := by
  cases f with
  | requestError err => exact ⟨rfl, rfl⟩
  | transportError err => exact ⟨rfl, rfl⟩
  | response status body =>
    by_cases hs : status = 200
    · cases body with
      | error err => simp [setupDexKeyDetails, hs]
      | ok kd => simp [FetchOutcome.failed, hs] at hf
    · simp [setupDexKeyDetails, hs]

theorem pollCycle_of_failed (d : Dex) (f : FetchOutcome) (hf : f.failed = true) :
    (pollCycle d f).1 = { d with sendMetrics := false } := by
  obtain ⟨h1, h2⟩ := setupDexKeyDetails_of_failed d f hf
  unfold pollCycle
  simp only []
  cases h : (setupDexKeyDetails d f).2 with
  | none => rw [h] at h2; cases h2
  | some err => simp only [h1]

theorem pollKeyDetails_of_failed (fs : List FetchOutcome) :
    ∀ d : Dex, d.sendMetrics = false → (∀ g ∈ fs, FetchOutcome.failed g = true) →
      pollKeyDetails d fs = d := by
  induction fs with
  | nil => intro d _ _; rfl
  | cons f fs ih =>
    intro d hd hfs
    have hf : f.failed = true := hfs f (List.mem_cons_self _ _)
    have hstep : (pollCycle d f).1 = d := by
      rw [pollCycle_of_failed d f hf]
      cases d
      simp_all
    unfold pollKeyDetails
    rw [List.foldl_cons, hstep]
    exact ih d hd (fun g hg => hfs g (List.mem_cons_of_mem _ hg))

theorem pollKeyDetails_append (d : Dex) (fs gs : List FetchOutcome) :
    pollKeyDetails d (fs ++ gs) = pollKeyDetails (pollKeyDetails d fs) gs := by
  simp [pollKeyDetails, List.foldl_append]

/-- C7. When the capability fetch of a poll cycle fails, `setupDexKeyDetails`
returns an error and the cycle of `pollKeyDetails` leaves `sendMetrics` false,
whatever it was before; it is still false after any further failing cycles, and
a successful cycle after them sets it to true. -/
theorem pollKeyDetails_failure_disables (d : Dex) (f : FetchOutcome) (fs : List FetchOutcome)
    (kd : dexKeyDetail) (hf : f.failed = true) (hfs : ∀ g ∈ fs, FetchOutcome.failed g = true) :
    (setupDexKeyDetails d f).2.isSome = true
      ∧ (pollCycle d f).1.sendMetrics = false
      ∧ (pollKeyDetails d (f :: fs)).sendMetrics = false
      ∧ (pollKeyDetails d (f :: fs ++ [FetchOutcome.response 200 (Except.ok kd)])).sendMetrics
          = true := by
  have hcycle : (pollCycle d f).1.sendMetrics = false := by
    rw [pollCycle_of_failed d f hf]
  have hrun : pollKeyDetails d (f :: fs) = (pollCycle d f).1 := by
    show pollKeyDetails (pollCycle d f).1 fs = (pollCycle d f).1
    exact pollKeyDetails_of_failed fs _ hcycle hfs
  refine ⟨(setupDexKeyDetails_of_failed d f hf).2, hcycle, ?_, ?_⟩
  · rw [hrun, hcycle]
  · rw [pollKeyDetails_append, hrun]
    simp [pollKeyDetails, pollCycle, setupDexKeyDetails]

theorem pollKeyDetails_failure_disables_witness :
    (setupDexKeyDetails activeDex (FetchOutcome.response 503 (Except.error "EOF"))).2.isSome
        = true
      ∧ (pollCycle activeDex (FetchOutcome.response 503 (Except.error "EOF"))).1.sendMetrics
        = false
      ∧ (pollKeyDetails activeDex
          (FetchOutcome.response 503 (Except.error "EOF")
            :: [FetchOutcome.transportError "timeout"])).sendMetrics = false
      ∧ (pollKeyDetails activeDex
          (FetchOutcome.response 503 (Except.error "EOF")
            :: [FetchOutcome.transportError "timeout"]
            ++ [FetchOutcome.response 200
                  (Except.ok { Name := "svc", Metrics := ["memory"] })])).sendMetrics = true :=
  pollKeyDetails_failure_disables activeDex (FetchOutcome.response 503 (Except.error "EOF"))
    [FetchOutcome.transportError "timeout"] { Name := "svc", Metrics := ["memory"] } rfl
    (by decide)

/-! ## Request handler -/

/-- The first piece of a split is the part before the first separator. -/
theorem splitChars_headD (sep : Char) (cs : List Char) :
    (splitChars sep cs).headD [] = cs.takeWhile (fun c => decide (c ≠ sep)) := by
  induction cs with
  | nil => rfl
  | cons c cs ih =>
    by_cases h : c = sep
    · simp [splitChars, h]
    · have ht : (c :: cs).takeWhile (fun c => decide (c ≠ sep))
          = c :: cs.takeWhile (fun c => decide (c ≠ sep)) := by
        simp [List.takeWhile_cons, h]
      rw [ht, ← ih]
      cases hs : splitChars sep cs <;> simp [splitChars, h, hs]

/-- The index expression `strings.Split(s, ":")[0]`. -/
theorem stringsSplit_headD (s : String) (sep : Char) :
    (stringsSplit s sep).headD "" = String.mk (s.data.takeWhile (fun c => decide (c ≠ sep))) := by
  unfold stringsSplit
  rw [← splitChars_headD]
  cases splitChars sep s.data <;> rfl

/-- Source: `strings.Split` never returns an empty slice, so the index `[0]` is
in range. -/
theorem stringsSplit_ne_nil (s : String) (sep : Char) : stringsSplit s sep ≠ [] := by
  unfold stringsSplit
  cases hs : s.data with
  | nil => simp [splitChars]
  | cons c cs =>
    by_cases h : c = sep
    · simp [splitChars, h]
    · cases hp : splitChars sep cs <;> simp [splitChars, h, hp]

/-- With collection inactive `handler` sends nothing. -/
theorem handler_of_inactive {σ : Type} (ops : ResponseWriter σ) (d : Dex) (w : σ)
    (r : Request) (next : List Call) (env : Readings) (h : d.sendMetrics = false) :
    (handler ops d w r next env).2 = [] := by
  simp [handler, h]

/-- With collection active `handler` sends one point for each enabled kind,
in the order latency, memory, status_code. -/
theorem handler_of_active {σ : Type} (ops : ResponseWriter σ) (d : Dex) (w : σ)
    (r : Request) (next : List Call) (env : Readings) (h : d.sendMetrics = true) :
    (handler ops d w r next env).2 =
      (if d.latency then
          [NewMetric env.start d.hostname r.URLPath ((stringsSplit r.Host ':').headD "")
            "latency" env.del]
        else [])
      ++ (if d.memory then
          [NewMetric env.start d.hostname r.URLPath ((stringsSplit r.Host ':').headD "")
            "memory" (int64OfUint64 env.alloc)]
        else [])
      ++ (if d.statusCode then
          [NewMetric env.start d.hostname r.URLPath ((stringsSplit r.Host ':').headD "")
            "status_code" (Response.calls ops { w := w, statusCode := 0 } next).statusCode]
        else []) := by
  simp [handler, h]

/-- C6. A sequence of requests of any length, each handled while `sendMetrics`
is false, sends no point on `metricQueue`, whatever the kind flags are and
whatever the wrapped handlers write. -/
theorem handleAll_of_inactive {σ : Type} (ops : ResponseWriter σ) (reqs : List (Served σ))
    (h : ∀ q ∈ reqs, q.d.sendMetrics = false) :
    handleAll ops reqs = [] := by
  induction reqs with
  | nil => rfl
  | cons q qs ih =>
    simp only [handleAll]
    rw [handler_of_inactive ops q.d q.w q.r q.next q.env (h q (List.mem_cons_self _ _)),
      ih (fun p hp => h p (List.mem_cons_of_mem _ hp))]
    rfl

theorem handleAll_of_inactive_witness :
    handleAll recorder
        [{ d := { activeDex with sendMetrics := false }, w := [], r := bracketedRequest,
           next := [Call.writeHeader 404], env := ⟨7, 3, 1024⟩ },
         { d := New "key" "worker-1", w := [],
           r := { URLPath := "/", Host := "example.com:9091" },
           next := [Call.write [72]], env := ⟨9, 4, 2048⟩ }] = [] :=
  handleAll_of_inactive recorder
    [{ d := { activeDex with sendMetrics := false }, w := [], r := bracketedRequest,
       next := [Call.writeHeader 404], env := ⟨7, 3, 1024⟩ },
     { d := New "key" "worker-1", w := [],
       r := { URLPath := "/", Host := "example.com:9091" },
       next := [Call.write [72]], env := ⟨9, 4, 2048⟩ }] (by decide)

/-- With collection active and the three kinds enabled, `handler` sends exactly
three points, in the order latency, memory, status_code; each carries the URL
path of the request and, as host, the part of the request host before its first
`:`, which holds no `:` and is the whole name when the request host is a name
without `:` followed by `:` and a port. -/
theorem handler_all_kinds {σ : Type} (ops : ResponseWriter σ) (d : Dex) (w : σ)
    (r : Request) (next : List Call) (env : Readings) (h : d.sendMetrics = true)
    (hl : d.latency = true) (hm : d.memory = true) (hs : d.statusCode = true) :
    (handler ops d w r next env).2.map Metric.MType = ["latency", "memory", "status_code"]
      ∧ (∀ m ∈ (handler ops d w r next env).2,
          m.Path = r.URLPath
            ∧ m.Host = String.mk (r.Host.data.takeWhile (fun c => decide (c ≠ ':')))
            ∧ ':' ∉ m.Host.data)
      ∧ (∀ name port : List Char, ':' ∉ name → r.Host = String.mk (name ++ ':' :: port) →
          ∀ m ∈ (handler ops d w r next env).2, m.Host = String.mk name) := by
  rw [handler_of_active ops d w r next env h, stringsSplit_headD]
  simp only [hl, hm, hs, if_true]
  refine ⟨rfl, ?_, ?_⟩
  · intro m hmem
    have hno : ':' ∉ r.Host.data.takeWhile (fun c => decide (c ≠ ':')) := by
      intro hin
      have := List.mem_takeWhile_imp hin
      simp at this
    simp only [List.cons_append, List.nil_append, List.mem_cons, List.mem_singleton,
      List.not_mem_nil, or_false] at hmem
    rcases hmem with rfl | rfl | rfl <;> exact ⟨rfl, rfl, hno⟩
  · intro name port hname hhost m hmem
    have htw : r.Host.data.takeWhile (fun c => decide (c ≠ ':')) = name := by
      rw [hhost]
      show (name ++ ':' :: port).takeWhile (fun c => decide (c ≠ ':')) = name
      rw [List.takeWhile_append_of_pos (fun c hc => by
        have : c ≠ ':' := fun e => hname (e ▸ hc)
        simpa using this)]
      simp
    simp only [List.cons_append, List.nil_append, List.mem_cons, List.mem_singleton,
      List.not_mem_nil, or_false] at hmem
    rcases hmem with rfl | rfl | rfl <;>
      exact congrArg String.mk htw

/-- C4. For the request host `[::1]:8080`, with collection active and the three
kinds enabled, `handler` sends three points in the order latency, memory,
status_code, each with the URL path of the request, but with the host `[`: the
request host with its port suffix removed is `[::1]`.  For the request host
`example.com:9091` the host of the points is `example.com`, the request host
with its port suffix removed. -/
theorem handler_bracketed_host_truncated :
    (handler recorder activeDex [] bracketedRequest [Call.write [111, 107]] ⟨10, 5, 4096⟩).2
        = [NewMetric 10 "worker-1" "/status" "[" "latency" 5,
           NewMetric 10 "worker-1" "/status" "[" "memory" 4096,
           NewMetric 10 "worker-1" "/status" "[" "status_code" 200]
      ∧ hostWithoutPort bracketedRequest.Host = "[::1]"
      ∧ (∀ m ∈ (handler recorder activeDex [] bracketedRequest [Call.write [111, 107]]
            ⟨10, 5, 4096⟩).2, m.Host ≠ hostWithoutPort bracketedRequest.Host)
      ∧ (∀ m ∈ (handler recorder activeDex [] { URLPath := "/", Host := "example.com:9091" }
            [Call.write [111, 107]] ⟨10, 5, 4096⟩).2,
          m.Host = "example.com" ∧ m.Host = hostWithoutPort "example.com:9091") := by
  decide

/-- C5. After a capability fetch that succeeds with the metric-name list
`kd.Metrics`, `setupDexKeyDetails` returns no error, each kind flag is true
exactly when its name occurs in the list, and `sendMetrics` is true; a request
handled afterwards sends, of the latency, memory and status_code points, in this
order, exactly those whose kind occurs in the list; for the list `["latency"]`
that is the latency point alone. -/
theorem setupDexKeyDetails_success_selects_kinds {σ : Type} (ops : ResponseWriter σ) (d : Dex)
    (kd : dexKeyDetail) (w : σ) (r : Request) (next : List Call) (env : Readings) :
    (setupDexKeyDetails d (FetchOutcome.response 200 (Except.ok kd))).2 = none
      ∧ ((setupDexKeyDetails d (FetchOutcome.response 200 (Except.ok kd))).1.latency = true
          ↔ "latency" ∈ kd.Metrics)
      ∧ ((setupDexKeyDetails d (FetchOutcome.response 200 (Except.ok kd))).1.memory = true
          ↔ "memory" ∈ kd.Metrics)
      ∧ ((setupDexKeyDetails d (FetchOutcome.response 200 (Except.ok kd))).1.statusCode = true
          ↔ "status_code" ∈ kd.Metrics)
      ∧ (setupDexKeyDetails d (FetchOutcome.response 200 (Except.ok kd))).1.sendMetrics = true
      ∧ (handler ops (setupDexKeyDetails d (FetchOutcome.response 200 (Except.ok kd))).1
            w r next env).2
          = [NewMetric env.start d.hostname r.URLPath ((stringsSplit r.Host ':').headD "")
               "latency" env.del,
             NewMetric env.start d.hostname r.URLPath ((stringsSplit r.Host ':').headD "")
               "memory" (int64OfUint64 env.alloc),
             NewMetric env.start d.hostname r.URLPath ((stringsSplit r.Host ':').headD "")
               "status_code"
               (Response.calls ops { w := w, statusCode := 0 } next).statusCode].filter
              (fun m => decide (m.MType ∈ kd.Metrics))
      ∧ (∀ name : String,
          (handler ops
              (setupDexKeyDetails d
                (FetchOutcome.response 200 (Except.ok { Name := name, Metrics := ["latency"] }))).1
              w r next env).2
            = [NewMetric env.start d.hostname r.URLPath ((stringsSplit r.Host ':').headD "")
                 "latency" env.del]) := by
  refine ⟨rfl, ?_, ?_, ?_, rfl, ?_, ?_⟩
  · exact stringInSlice_iff _ _
  · exact stringInSlice_iff _ _
  · exact stringInSlice_iff _ _
  · rw [handler_of_active _ _ _ _ _ _ rfl]
    have e1 : (setupDexKeyDetails d (FetchOutcome.response 200 (Except.ok kd))).1.latency
        = stringInSlice "latency" kd.Metrics := rfl
    have e2 : (setupDexKeyDetails d (FetchOutcome.response 200 (Except.ok kd))).1.memory
        = stringInSlice "memory" kd.Metrics := rfl
    have e3 : (setupDexKeyDetails d (FetchOutcome.response 200 (Except.ok kd))).1.statusCode
        = stringInSlice "status_code" kd.Metrics := rfl
    have e4 : (setupDexKeyDetails d (FetchOutcome.response 200 (Except.ok kd))).1.hostname
        = d.hostname := rfl
    rw [e1, e2, e3, e4, stringInSlice_eq_decide, stringInSlice_eq_decide,
      stringInSlice_eq_decide]
    by_cases h1 : "latency" ∈ kd.Metrics <;> by_cases h2 : "memory" ∈ kd.Metrics <;>
      by_cases h3 : "status_code" ∈ kd.Metrics <;>
      simp [List.filter, NewMetric, h1, h2, h3]
  · intro name
    rw [handler_of_active _ _ _ _ _ _ rfl]
    simp [setupDexKeyDetails, stringInSlice]

end DexGo
